import Mathlib

/-
Verification development for the Canvas-to-Notion sync service
(source files: app.py, web.py).

The Python source is shallowly embedded below.  Strings are modelled as
`List Char` at the core (with `String` wrappers where convenient); Python
`None`-able values become `Option`; code that raises `requests.HTTPError`
is modelled in `Except Nat` where the `Nat` is the HTTP status carried by
the error.  Remote collaborators (Canvas, Notion) are modelled as explicit
oracle functions passed to each embedded operation; the store mutated by
the Notion writes is threaded explicitly.  Unicode-specific behaviour of
the Python standard library (NFKC normalization, the unicode word/space
classes of the `re` module, `str.lower`) is modelled on its ASCII
fragment, which is where every claim under study lives.
-/

deriving instance DecidableEq for Except

namespace CanvasNotion

/-! ## Python string primitives -/

/-- The character class of Python's regex `\s` / `str.strip`, ASCII fragment. -/
def isPySpace (c : Char) : Bool :=
  c = ' ' || c = '\t' || c = '\n' || c = '\r' || c = '\x0b' || c = '\x0c'

/-- The character class of Python's regex `\w`, ASCII fragment:
letters, digits, underscore. -/
def isWordChar (c : Char) : Bool :=
  c.isAlphanum || c = '_'

/-- Python truthiness of an optional string: `None` and `""` are falsy. -/
def pyTruthyOS : Option String → Bool
  | none => false
  | some s => s ≠ ""

/-- Python `a or b` for an optional string with a string default. -/
def pyOrS (a : Option String) (b : String) : String :=
  match a with
  | some s => if s = "" then b else s
  | none => b

/-- Python `a or b` where both operands are optional strings. -/
def pyOrOS (a b : Option String) : Option String :=
  if pyTruthyOS a then a else b

/-- Python truthiness of an optional integer: `None` and `0` are falsy. -/
def pyTruthyOI : Option Int → Bool
  | none => false
  | some n => n ≠ 0

/-- Python `str(...)` applied to an optional integer: `str(None) = "None"`. -/
def pyStrOI : Option Int → String
  | none => "None"
  | some n => toString n

/-- One pass of Python's `re.sub(r"\s+", " ", s)`: every maximal run of
whitespace becomes a single space.  The flag records whether the previous
character was part of a whitespace run. -/
def collapseWsAux : Bool → List Char → List Char
  | _, [] => []
  | inRun, c :: rest =>
    if isPySpace c then
      if inRun then collapseWsAux true rest
      else ' ' :: collapseWsAux true rest
    else c :: collapseWsAux false rest

def collapseWs (cs : List Char) : List Char :=
  collapseWsAux false cs

/-- Python `str.strip()` (ASCII whitespace). -/
def stripWs (cs : List Char) : List Char :=
  ((cs.dropWhile isPySpace).reverse.dropWhile isPySpace).reverse

/-- Python `str.lower()` on the ASCII fragment. -/
def lowerL (cs : List Char) : List Char :=
  cs.map Char.toLower

/-! ## Text classifier (`norm`, `looks_like_syllabus`, `looks_like_orientation`)

`norm` in app.py is
`NFKC-normalize; re.sub(r"\s+", " ", s); strip(); lower()`.
NFKC normalization is the identity on ASCII text and is modelled as such. -/

def normCore (cs : List Char) : List Char :=
  lowerL (stripWs (collapseWs cs))

def norm (s : String) : String :=
  String.mk (normCore s.data)

/-- Does `needle` occur as a contiguous infix of `haystack`?
(Python's `needle in haystack` on strings.) -/
def containsSub (needle : List Char) : List Char → Bool
  | [] => needle.isPrefixOf []
  | c :: rest => needle.isPrefixOf (c :: rest) || containsSub needle rest

/-- Occurrence search for the regex `\bsyllab\w*\b` of app.py
(`SYLLAB_PAT`).  Since `"syllab"` ends in a word character and `\w*` is
followed by `\b`, the trailing `\w*\b` always succeeds at the end of a
maximal word-character run; the pattern therefore matches exactly when
some occurrence of `"syllab"` is preceded by the start of the string or a
non-word character.  The flag records whether the previous character was a
word character. -/
def hasSyllabStem : Bool → List Char → Bool
  | _, [] => false
  | prevW, c :: rest =>
    (!prevW && ("syllab".data.isPrefixOf (c :: rest))) ||
      hasSyllabStem (isWordChar c) rest

/-- app.py `looks_like_syllabus`: `re.search(r"\bsyllab\w*\b", norm(title))`. -/
def looks_like_syllabus (title : String) : Bool :=
  hasSyllabStem false (normCore title.data)

/-- Matcher for one `ORIENT_PATTERNS` regex of app.py, viewed as a
word sequence: the words must occur at the current position, each pair of
adjacent words separated by the regex `\s*`, the whole flanked by `\b`.
On `norm`-alized text every whitespace run is a single `' '`, so `\s*`
matches either nothing or one space.  The trailing word boundary is the
head case; the leading one is checked by the caller. -/
def seqHere : List (List Char) → List Char → Bool
  | [], [] => true
  | [], c :: _ => !isWordChar c
  | [w], cs => w.isPrefixOf cs && seqHere [] (cs.drop w.length)
  | w :: w2 :: ws, cs =>
    w.isPrefixOf cs &&
      (let rest := cs.drop w.length
       seqHere (w2 :: ws) rest ||
         (match rest with
          | ' ' :: rest' => seqHere (w2 :: ws) rest'
          | _ => false))

/-- Search a word-sequence pattern at every position whose predecessor is
a word boundary. -/
def seqSearch (ws : List (List Char)) : Bool → List Char → Bool
  | _, [] => false
  | prevW, c :: rest =>
    (!prevW && seqHere ws (c :: rest)) || seqSearch ws (isWordChar c) rest

/-- app.py `ORIENT_PATTERNS`, with the regex alternations
`(overview|info|information)` and `polic(y|ies)` expanded into separate
word sequences. -/
def ORIENT_SEQS : List (List (List Char)) :=
  [["orientation".data],
   ["start".data, "here".data],
   ["begin".data, "here".data],
   ["getting".data, "started".data],
   ["welcome".data],
   ["read".data, "me".data, "first".data],
   ["course".data, "overview".data],
   ["course".data, "info".data],
   ["course".data, "information".data],
   ["policy".data],
   ["policies".data],
   ["simple".data, "syllabus".data],
   ["smart".data, "syllabus".data]]

/-- app.py `looks_like_orientation`: any of the orientation patterns
matches the normalized title. -/
def looks_like_orientation (title : String) : Bool :=
  ORIENT_SEQS.any (fun ws => seqSearch ws false (normCore title.data))

/-! ## `plain_text_preview` -/

/-- Scan for the next `'>'`, returning the suffix after it. -/
def dropThroughGt : List Char → Option (List Char)
  | [] => none
  | c :: t => if c = '>' then some t else dropThroughGt t

/-- A well-formed tag `<[^>]+>` starts at a `'<'` whose following text is
a non-`'>'` character followed by anything up to the next `'>'`.  Given
the text after the `'<'`, return the suffix after the closing `'>'`, or
`none` when the regex cannot match here. -/
def tagSplit : List Char → Option (List Char)
  | [] => none
  | c :: t => if c = '>' then none else dropThroughGt t

/-- Python's `re.sub(r"<[^>]+>", " ", s)`: each leftmost well-formed tag
span is replaced by a single space.  When no `'>'` remains after a
literal `'<'`, no further tag can close, so the remainder is emitted
verbatim (identical to the regex engine's character-by-character scan).
The fuel argument only bounds the recursion (the processed suffix
strictly shrinks each step, so `cs.length` fuel never runs out); it keeps
the definition structurally recursive and hence computable by `decide`. -/
def stripTagsFuel : Nat → List Char → List Char
  | 0, cs => cs
  | fuel + 1, cs =>
    match cs with
    | [] => []
    | c :: rest =>
      if c = '<' then
        match tagSplit rest with
        | some post => ' ' :: stripTagsFuel fuel post
        | none =>
          match rest with
          | [] => ['<']
          | r :: t => if r = '>' then '<' :: '>' :: stripTagsFuel fuel t else c :: rest
      else c :: stripTagsFuel fuel rest

def stripTags (cs : List Char) : List Char :=
  stripTagsFuel cs.length cs

/-- Python's `html.unescape`, modelled on the basic named/numeric
entities (`&amp; &lt; &gt; &quot; &#39;`); other ampersands pass
through unchanged. -/
def htmlUnescape : List Char → List Char
  | [] => []
  | '&' :: 'a' :: 'm' :: 'p' :: ';' :: t => '&' :: htmlUnescape t
  | '&' :: 'l' :: 't' :: ';' :: t => '<' :: htmlUnescape t
  | '&' :: 'g' :: 't' :: ';' :: t => '>' :: htmlUnescape t
  | '&' :: 'q' :: 'u' :: 'o' :: 't' :: ';' :: t => '"' :: htmlUnescape t
  | '&' :: '#' :: '3' :: '9' :: ';' :: t => Char.ofNat 39 :: htmlUnescape t
  | c :: rest => c :: htmlUnescape rest

/-- The stripping pipeline of `plain_text_preview` before truncation:
`txt = re.sub(r"<[^>]+>", " ", html_body)`;
`txt = html.unescape(re.sub(r"\s+", " ", txt)).strip()`. -/
def strippedTextCore (cs : List Char) : List Char :=
  stripWs (htmlUnescape (collapseWs (stripTags cs)))

/-- app.py `plain_text_preview(html_body, limit=240)`. -/
def plain_text_preview (html_body : Option String) (limit : Nat := 240) : String :=
  match html_body with
  | none => ""
  | some s =>
    if s = "" then ""
    else
      let txt := strippedTextCore s.data
      if limit < txt.length then String.mk (txt.take limit ++ ['…'])
      else String.mk txt

/-! ## Canvas pagination (`paginate_canvas`)

The Canvas server is an oracle `String → PageResp ρ` from request URL to
response; the response carries the JSON payload (a list of records, or a
single non-list record) and the raw `Link` header.  The embedded fetch
additionally returns the trace of `(url, params)` pairs of the issued
requests, so that the claim about query parameters is statable.  Fuel
bounds the number of requests; a `none` result means fuel ran out. -/

inductive CanvasData (ρ : Type) where
  | arr (items : List ρ)
  | single (item : ρ)
deriving DecidableEq, Repr

structure PageResp (ρ : Type) where
  data : CanvasData ρ
  linkHeader : String
deriving DecidableEq, Repr

/-- Python `s.find(c)`: index of the first occurrence, `-1` if absent. -/
def pyFindChar (cs : List Char) (c : Char) : Int :=
  match cs.findIdx? (· = c) with
  | some i => (i : Int)
  | none => -1

/-- Python slice `cs[start:stop]` with a non-negative start and a
possibly negative stop. -/
def pySliceTo (cs : List Char) (start : Nat) (stop : Int) : List Char :=
  let stop' : Int := if stop < 0 then stop + cs.length else stop
  let stopN : Nat := if stop' < 0 then 0 else min stop'.toNat cs.length
  (cs.take stopN).drop start

/-- Python `link.split(",")`: split on every comma, keeping empty
parts. -/
def splitCommaAux (cur : List Char) : List Char → List (List Char)
  | [] => [cur.reverse]
  | c :: rest =>
    if c = ',' then cur.reverse :: splitCommaAux [] rest
    else splitCommaAux (c :: cur) rest

/-- The inner loop of the `Link`-header scan of `paginate_canvas`:
the first comma-separated (and stripped) part containing `rel="next"`
yields `p[p.find("<")+1 : p.find(">")]`. -/
def findNextIn : List (List Char) → Option String
  | [] => none
  | p :: rest =>
    if containsSub "rel=\"next\"".data p then
      some (String.mk (pySliceTo p (pyFindChar p '<' + 1).toNat
        (pyFindChar p '>')))
    else findNextIn rest

/-- app.py lines 53–62: extract the `rel="next"` URL from a `Link`
header (`None` when the header is empty or no part mentions
`rel="next"`). -/
def parseNextUrl (link : String) : Option String :=
  if link = "" then none
  else findNextIn ((splitCommaAux [] link.data).map stripWs)

/-- app.py `paginate_canvas(url, params)`.  Yields the concatenation of
all fetched records plus the request trace.  The `while url:` loop stops
when the extracted next-URL is absent or empty (an empty string is falsy
in Python); `params = {}` after the first request is the recursive call
with `[]`. -/
def paginate_canvas {ρ : Type} (server : String → PageResp ρ) :
    Nat → String → List (String × String) →
    Option (List ρ × List (String × List (String × String)))
  | 0, _, _ => none
  | fuel + 1, url, params =>
    let r := server url
    let items := match r.data with
      | .arr l => l
      | .single x => [x]
    match parseNextUrl r.linkHeader with
    | none => some (items, [(url, params)])
    | some u =>
      if u = "" then some (items, [(url, params)])
      else
        match paginate_canvas server fuel u [] with
        | none => none
        | some (rest, tr) => some (items ++ rest, (url, params) :: tr)

/-- A linked chain of pages on the server, starting at a URL: each page
holds a list payload and names its successor via the `Link` header; the
last page's header yields no (non-empty) next URL. -/
def ChainOk {ρ : Type} (server : String → PageResp ρ) :
    String → List (List ρ) → Prop
  | _, [] => False
  | u, [pg] => (server u).data = .arr pg ∧
      (parseNextUrl (server u).linkHeader = none ∨
        parseNextUrl (server u).linkHeader = some "")
  | u, pg :: pg2 :: rest => (server u).data = .arr pg ∧
      ∃ u', parseNextUrl (server u).linkHeader = some u' ∧ u' ≠ "" ∧
        ChainOk server u' (pg2 :: rest)

/-! ## Course selection (`get_current_and_future_courses`)

Term dates arrive as ISO-8601 strings and are parsed by `_parse`, which
returns `None` on any failure (missing value or unparsable text).  The
embedding models the *parsed* result directly: `Option Int` is the
outcome of `_parse` on the respective field, with `none` covering both a
missing `start_at`/`end_at` and a parse failure, and `Int` a naive UTC
timestamp comparable with `datetime.utcnow()`. -/

structure TermInfo where
  start_at : Option Int
  end_at : Option Int
deriving DecidableEq, Repr

structure FallbackCourse where
  term : Option TermInfo
deriving DecidableEq, Repr

/-- The keep condition of the fallback loop (app.py line 116):
`(sdt is None and edt is None) or (edt and edt >= now) or (sdt and sdt >= now)`
(a datetime object is always truthy in Python). -/
def keepCourse (now : Int) (c : FallbackCourse) : Bool :=
  let sdt := c.term.bind TermInfo.start_at
  let edt := c.term.bind TermInfo.end_at
  (sdt.isNone && edt.isNone) ||
    (match edt with
     | some e => decide (now ≤ e)
     | none => false) ||
    (match sdt with
     | some s => decide (now ≤ s)
     | none => false)

/-- app.py `get_current_and_future_courses`: the primary
`/users/self/courses` query (its outcome is the `primary` oracle) is
returned when it succeeds with a non-empty list; on an HTTP error or an
empty result the fallback `/courses` listing is post-filtered by
`keepCourse`. -/
def get_current_and_future_courses (primary : Except Nat (List FallbackCourse))
    (fallback : List FallbackCourse) (now : Int) : List FallbackCourse :=
  match primary with
  | .ok cs => if cs.isEmpty then fallback.filter (keepCourse now) else cs
  | .error _ => fallback.filter (keepCourse now)

/-- Modelled from the spec's words, for comparison with `keepCourse`:
keep a course iff its enrollment term has no defined start/end date, or
its end date is not in the past, or its start date is not yet reached. -/
def specKeepsCourse (now : Int) (c : FallbackCourse) : Prop :=
  let sdt := c.term.bind TermInfo.start_at
  let edt := c.term.bind TermInfo.end_at
  (sdt = none ∧ edt = none) ∨
    (∃ e, edt = some e ∧ ¬ e < now) ∨
    (∃ s, sdt = some s ∧ now ≤ s)

/-! ## Assignment normalization and the Notion upsert

The Notion database is modelled as a store of pages with the property
payload written by `build_notion_properties`; `nextId` supplies fresh
page identifiers.  A well-formed store (`WfStore`) has pairwise-distinct
page ids, all below `nextId` — which is what the real Notion guarantees
and what `create`/`update` preserve. -/

/-- A Canvas assignment as received from the API (fields of interest;
absent JSON keys are `none`).  The numeric `points_possible` payload is
modelled by `Int` (it is passed through, never computed with). -/
structure SrcAssignment where
  id : Option Int
  name : Option String
  due_at : Option String
  html_url : Option String
  points_possible : Option Int
  published : Option Bool
  workflow_state : Option String
deriving DecidableEq, Repr

/-- The canonical record produced by `normalize_assignment`. -/
structure AssignmentRecord where
  id : String
  name : String
  due_at : Option String
  url : Option String
  points : Option Int
  course : String
  published : Bool
  workflow_state : Option String
deriving DecidableEq, Repr

/-- app.py `normalize_assignment(a, course_name)`. -/
def normalize_assignment (a : SrcAssignment) (course_name : String) :
    AssignmentRecord :=
  { id := pyStrOI a.id
    name := pyOrS a.name ("Assignment " ++ pyStrOI a.id)
    due_at := a.due_at
    url := a.html_url
    points := a.points_possible
    course := course_name
    published := a.published.getD true
    workflow_state := a.workflow_state }

/-- The property payload of `build_notion_properties` (the configurable
Notion property names are irrelevant to the claims; the fields stand for
the values stored under them). -/
structure NotionProps where
  name : String
  course : String
  canvasId : String
  url : Option String
  points : Option Int
  due : Option String
  status : Option String
deriving DecidableEq, Repr

/-- app.py `build_notion_properties(x)`: `url` and `due` are set only when
truthy, `points` only when not `None`, and the status is
`workflow_state or ("published" if published else "unpublished")`. -/
def build_notion_properties (x : AssignmentRecord) : NotionProps :=
  let status_val := pyOrS x.workflow_state
    (if x.published then "published" else "unpublished")
  { name := x.name
    course := x.course
    canvasId := x.id
    url := if pyTruthyOS x.url then x.url else none
    points := x.points
    due := if pyTruthyOS x.due_at then x.due_at else none
    status := if status_val ≠ "" then some status_val else none }

structure NotionPage where
  pid : Nat
  props : NotionProps
deriving DecidableEq, Repr

structure NotionStore where
  nextId : Nat
  pages : List NotionPage
deriving DecidableEq, Repr

/-- The destination store is well formed: distinct page ids, all below
the fresh-id counter. -/
def WfStore (st : NotionStore) : Prop :=
  st.pages.Pairwise (fun p q => p.pid ≠ q.pid) ∧
    ∀ p ∈ st.pages, p.pid < st.nextId

/-- app.py `notion_query_by_canvas_id`: filter the database on the
Canvas-id property equalling the key, `page_size` 1. -/
def notion_query_by_canvas_id (canvas_id : String) (st : NotionStore) :
    List NotionPage :=
  (st.pages.filter (fun p => p.props.canvasId = canvas_id)).take 1

/-- app.py `notion_create_page`: a new page with a fresh id. -/
def notion_create_page (props : NotionProps) (st : NotionStore) : NotionStore :=
  { nextId := st.nextId + 1
    pages := st.pages ++ [{ pid := st.nextId, props := props }] }

/-- app.py `notion_update_page`: replace the properties of the page with
the given id. -/
def notion_update_page (page_id : Nat) (props : NotionProps)
    (st : NotionStore) : NotionStore :=
  { st with pages := st.pages.map (fun p =>
      if p.pid = page_id then { p with props := props } else p) }

inductive UpsertAction where
  | created
  | updated (pid : Nat)
deriving DecidableEq, Repr

/-- app.py `upsert_assignment(x)`: query by the identity key; update the
first match in place, else create.  Also reports which action was
taken. -/
def upsert_assignment (x : AssignmentRecord) (st : NotionStore) :
    UpsertAction × NotionStore :=
  let results := notion_query_by_canvas_id x.id st
  let props := build_notion_properties x
  match results with
  | r :: _ => (.updated r.pid, notion_update_page r.pid props st)
  | [] => (.created, notion_create_page props st)

/-- Number of destination records bearing an identity key. -/
def countKey (k : String) (st : NotionStore) : Nat :=
  st.pages.countP (fun p => p.props.canvasId = k)

/-- Repeated upsert of a batch of records (the store after the side
effects of `upsert_assignment` on each record in order). -/
def upsertAll (xs : List AssignmentRecord) (st : NotionStore) : NotionStore :=
  xs.foldl (fun s x => (upsert_assignment x s).2) st

/-! ## The assignment pass of `sync_once`

Remote calls are oracles returning `Except PyErr`.  Python's
`except requests.HTTPError` catches only `httpError`; any other exception
propagates out of the loop, exactly as in the source.  The pass produces
the sequence of observable events (log lines and the cooldown sleep) so
that continuation after per-item failures is statable. -/

inductive PyErr where
  | httpError (code : Nat)
  | otherError
deriving DecidableEq, Repr

structure SyncCourse where
  id : Option Int
  name : Option String
deriving DecidableEq, Repr

inductive SyncEvent where
  | fetchFailed (course : String) (code : Nat)
  | upserted (course : String) (asg : String)
  | upsertFailed (course : String) (asg : String) (code : Nat)
  | cooldown
deriving DecidableEq, Repr

/-- The inner assignment loop of `sync_once` (lines 443–452): normalize,
skip undated records when `ONLY_DATED`, upsert with the per-assignment
`try/except requests.HTTPError` and `time.sleep(0.6)` cooldown. -/
def syncAssignmentsLoop (upsertO : AssignmentRecord → Except PyErr Unit)
    (onlyDated : Bool) (cname : String) :
    List SrcAssignment → Except PyErr (List SyncEvent)
  | [] => .ok []
  | a :: more =>
    let x := normalize_assignment a cname
    if onlyDated && !pyTruthyOS x.due_at then
      syncAssignmentsLoop upsertO onlyDated cname more
    else
      match upsertO x with
      | .ok _ =>
        match syncAssignmentsLoop upsertO onlyDated cname more with
        | .error e => .error e
        | .ok evts => .ok (.upserted cname x.name :: evts)
      | .error (.httpError code) =>
        match syncAssignmentsLoop upsertO onlyDated cname more with
        | .error e => .error e
        | .ok evts => .ok (.upsertFailed cname x.name code :: .cooldown :: evts)
      | .error .otherError => .error .otherError

/-- The course loop of the assignment pass of `sync_once`
(lines 432–452): per-course `try/except requests.HTTPError` around the
assignment fetch; a falsy course id (`None` or `0`) skips the course. -/
def sync_once_assignment_pass (fetchO : Int → Except PyErr (List SrcAssignment))
    (upsertO : AssignmentRecord → Except PyErr Unit) (onlyDated : Bool) :
    List SyncCourse → Except PyErr (List SyncEvent)
  | [] => .ok []
  | c :: rest =>
    let cname := pyOrS c.name ("Course " ++ pyStrOI c.id)
    match c.id with
    | none => sync_once_assignment_pass fetchO upsertO onlyDated rest
    | some n =>
      if n = 0 then sync_once_assignment_pass fetchO upsertO onlyDated rest
      else
        match fetchO n with
        | .error (.httpError code) =>
          match sync_once_assignment_pass fetchO upsertO onlyDated rest with
          | .error e => .error e
          | .ok evts => .ok (.fetchFailed cname code :: evts)
        | .error .otherError => .error .otherError
        | .ok asgs =>
          match syncAssignmentsLoop upsertO onlyDated cname asgs with
          | .error e => .error e
          | .ok evts =>
            match sync_once_assignment_pass fetchO upsertO onlyDated rest with
            | .error e => .error e
            | .ok evts' => .ok (evts ++ evts')

/-- Per-assignment event summary: what one assignment contributes to the
pass, independently of every other item. -/
def assignmentEvents (upsertO : AssignmentRecord → Except PyErr Unit)
    (onlyDated : Bool) (cname : String) (a : SrcAssignment) : List SyncEvent :=
  let x := normalize_assignment a cname
  if onlyDated && !pyTruthyOS x.due_at then []
  else
    match upsertO x with
    | .ok _ => [.upserted cname x.name]
    | .error (.httpError code) => [.upsertFailed cname x.name code, .cooldown]
    | .error .otherError => []

/-- Per-course event summary: what one course contributes to the pass,
independently of every other course. -/
def courseEvents (fetchO : Int → Except PyErr (List SrcAssignment))
    (upsertO : AssignmentRecord → Except PyErr Unit) (onlyDated : Bool)
    (c : SyncCourse) : List SyncEvent :=
  let cname := pyOrS c.name ("Course " ++ pyStrOI c.id)
  match c.id with
  | none => []
  | some n =>
    if n = 0 then []
    else
      match fetchO n with
      | .error (.httpError code) => [.fetchFailed cname code]
      | .error .otherError => []
      | .ok asgs => asgs.flatMap (assignmentEvents upsertO onlyDated cname)

/-! ## Digest builder (`summarize_intros_and_syllabi` and helpers)

The per-course Canvas responses are collected in a `CourseEnv` oracle;
each field is the outcome of the corresponding fetch, `Except Nat`
carrying the HTTP status of a `requests.HTTPError`.  Notion blocks are
the values built by `bullet`/`heading`. -/

inductive Block where
  | bulleted_list_item (text : String) (href : Option String)
  | heading_2 (text : String)
deriving DecidableEq, Repr

/-- app.py `bullet(text, href=None)`. -/
def bullet (text : String) (href : Option String := none) : Block :=
  .bulleted_list_item text href

/-- app.py `heading(text)`. -/
def heading (text : String) : Block :=
  .heading_2 text

/-- Raw `/front_page` JSON (fields of interest). -/
structure RawFrontPage where
  title : Option String
  body : Option String
  html_url : Option String
deriving DecidableEq, Repr

structure FrontPage where
  title : String
  html : String
  web_url : Option String
deriving DecidableEq, Repr

/-- app.py `get_front_page`: the fetch is wrapped in
`try/except requests.HTTPError: return None`, so an HTTP error yields
`None` instead of propagating. -/
def get_front_page (fetched : Except Nat RawFrontPage) : Option FrontPage :=
  match fetched with
  | .error _ => none
  | .ok d =>
    some { title := pyOrS d.title "Front Page"
           html := pyOrS d.body ""
           web_url := d.html_url }

/-- A page from the `/pages` listing; `body` is the outcome of the
follow-up fetch of that page's body (which `raise_for_status`es). -/
structure RawPage where
  title : Option String
  body : Except Nat (Option String)
  html_url : Option String
deriving Repr

structure PageRec where
  title : String
  html : Option String
  web_url : Option String
deriving DecidableEq, Repr

def pagesLoop : List RawPage → Except Nat (List PageRec)
  | [] => .ok []
  | p :: rest =>
    match p.body with
    | .error e => .error e
    | .ok b =>
      match pagesLoop rest with
      | .error e => .error e
      | .ok out =>
        .ok ({ title := pyOrS p.title "", html := b, web_url := p.html_url } :: out)

/-- app.py `get_pages_with_bodies`: list the course pages, then fetch
each page's body; any HTTP error propagates. -/
def get_pages_with_bodies (listing : Except Nat (List RawPage)) :
    Except Nat (List PageRec) :=
  match listing with
  | .error e => .error e
  | .ok ps => pagesLoop ps

structure RawItem where
  title : Option String
  html_url : Option String
  external_url : Option String
  itemType : Option String
deriving DecidableEq, Repr

/-- A module from the `/modules` listing; `items` is the outcome of the
per-module item listing. -/
structure RawModule where
  name : Option String
  items : Except Nat (List RawItem)
deriving Repr

structure ModuleItem where
  module : Option String
  title : String
  web_url : Option String
  itemType : Option String
deriving DecidableEq, Repr

def modulesLoop : List RawModule → Except Nat (List ModuleItem)
  | [] => .ok []
  | m :: rest =>
    match m.items with
    | .error e => .error e
    | .ok its =>
      match modulesLoop rest with
      | .error e => .error e
      | .ok out =>
        .ok ((its.map (fun it =>
          { module := m.name
            title := pyOrS it.title ""
            web_url := pyOrOS it.html_url it.external_url
            itemType := it.itemType })) ++ out)

/-- app.py `get_modules_and_items`: list the modules, then each module's
items; any HTTP error propagates. -/
def get_modules_and_items (listing : Except Nat (List RawModule)) :
    Except Nat (List ModuleItem) :=
  match listing with
  | .error e => .error e
  | .ok ms => modulesLoop ms

structure RawFile where
  display_name : Option String
  filename : Option String
  url : Option String
deriving DecidableEq, Repr

structure FileRec where
  title : String
  web_url : Option String
deriving DecidableEq, Repr

/-- Python `name.lower().endswith(ext)` for the extensions of
`find_syllabus_files`. -/
def hasKeptExt (name : String) : Bool :=
  [".pdf", ".doc", ".docx"].any
    (fun ext => ext.data.isSuffixOf (lowerL name.data))

/-- app.py `find_syllabus_files`: list the course files (server-side
search), keep those whose display name matches the syllabus heuristic or
ends in `.pdf`/`.doc`/`.docx`; any HTTP error propagates. -/
def find_syllabus_files (listing : Except Nat (List RawFile)) :
    Except Nat (List FileRec) :=
  match listing with
  | .error e => .error e
  | .ok fs =>
    .ok ((fs.filter (fun f =>
        let name := pyOrS f.display_name (pyOrS f.filename "")
        looks_like_syllabus name || hasKeptExt name)).map
      (fun f => { title := pyOrS f.display_name (pyOrS f.filename "")
                  web_url := f.url }))

/-- The per-course Canvas responses consumed by the digest loop. -/
structure CourseEnv where
  syllabus_body : Except Nat (Option String)
  front_page : Except Nat RawFrontPage
  pages : Except Nat (List RawPage)
  modules : Except Nat (List RawModule)
  files : Except Nat (List RawFile)

/-- The syllabus-body, pages (listing and per-page bodies), modules
(listing and per-module items) and files fetches of a course all
succeed.  The front-page fetch is deliberately unconstrained. -/
def EnvFetchesOk (env : CourseEnv) : Prop :=
  (∃ v, env.syllabus_body = .ok v) ∧
  (∃ v, env.pages = .ok v ∧ ∀ p ∈ v, ∃ b, p.body = .ok b) ∧
  (∃ v, env.modules = .ok v ∧ ∀ m ∈ v, ∃ i, m.items = .ok i) ∧
  (∃ v, env.files = .ok v)

/-- The body of the per-course digest loop (app.py lines 364–422): the
syllabus-body, pages, modules and files fetches propagate their HTTP
errors; the front-page fetch is shielded by `get_front_page`. -/
def digestCourseBlocks (baseUrl : String) (env : CourseEnv) (cid : Int)
    (cname : String) : Except Nat (List Block) :=
  match env.syllabus_body with
  | .error e => .error e
  | .ok body =>
    let b1 := if pyTruthyOS body then
        [bullet ("[Syllabus] " ++ cname ++ " — " ++ plain_text_preview body 120)
          (some (baseUrl ++ "/courses/" ++ toString cid ++ "/assignments/syllabus"))]
      else []
    let b2 := match get_front_page env.front_page with
      | some fp =>
        if looks_like_orientation fp.title || looks_like_syllabus fp.title ||
            containsSub "start".data (normCore fp.title.data) then
          [bullet ("[Front Page] " ++ cname ++ ": " ++ fp.title ++ " — " ++
            plain_text_preview (some fp.html) 120) fp.web_url]
        else []
      | none => []
    match get_pages_with_bodies env.pages with
    | .error e => .error e
    | .ok pages =>
      let b3 := pages.flatMap (fun p =>
        if looks_like_orientation p.title || looks_like_syllabus p.title then
          [bullet ("[Page] " ++ cname ++ ": " ++ p.title ++ " — " ++
            plain_text_preview p.html 120) p.web_url]
        else [])
      match get_modules_and_items env.modules with
      | .error e => .error e
      | .ok mods =>
        let b4 := mods.flatMap (fun it =>
          if looks_like_orientation it.title || looks_like_syllabus it.title ||
              looks_like_orientation (pyOrS it.module "") then
            [bullet ("[Module] " ++ cname ++ ": " ++ it.title) it.web_url]
          else [])
        match find_syllabus_files env.files with
        | .error e => .error e
        | .ok files =>
          let b5 := files.map (fun f =>
            bullet ("[File] " ++ cname ++ ": " ++ f.title) f.web_url)
          .ok (b1 ++ b2 ++ b3 ++ b4 ++ b5)

/-- The course loop of `summarize_intros_and_syllabi` (lines 356–424):
skip courses with a falsy id, accumulate the per-course blocks, propagate
any uncaught HTTP error. -/
def digestLoop (baseUrl : String) (envOf : Int → CourseEnv) :
    List SyncCourse → Except Nat (List Block)
  | [] => .ok []
  | c :: rest =>
    let cname := pyOrS c.name ("Course " ++ pyStrOI c.id)
    match c.id with
    | none => digestLoop baseUrl envOf rest
    | some n =>
      if n = 0 then digestLoop baseUrl envOf rest
      else
        match digestCourseBlocks baseUrl (envOf n) n cname with
        | .error e => .error e
        | .ok bs =>
          match digestLoop baseUrl envOf rest with
          | .error e => .error e
          | .ok out => .ok (bs ++ out)

/-- A child block of the digest page as held in Notion (the block id is
what the `DELETE /blocks/{id}` call addresses). -/
structure NBlock where
  bid : Nat
  blk : Block
deriving DecidableEq, Repr

/-- The delete loop inside one page of `clear_page_children`:
`requests.delete` per block, `raise_for_status` unless the response
status is in `(200, 202, 204, 404)` — a 404 ("already gone") is
tolerated.  `delStatus` is the response-status oracle. -/
def deleteLoop (delStatus : Nat → Nat) : List NBlock → Except Nat Unit
  | [] => .ok ()
  | b :: rest =>
    let s := delStatus b.bid
    if s = 200 || s = 202 || s = 204 || s = 404 then deleteLoop delStatus rest
    else .error s

/-- app.py `clear_page_children(page_id)`, the `while True:` loop.  The
child listing is the Notion list-children endpoint with `page_size=100`:
it hands back the first hundred remaining children and `has_more` when
more remain, and it paginates via `next_cursor`/`start_cursor` — its
response has no `next_url` member, so the code's `data.get("next_url")`
is always `None`.  Consequently the continue branch of
`if data.get("has_more") and data.get("next_url")` is never taken: after
deleting the first listing page of blocks the loop breaks, leaving any
further children undeleted.  The fuel only bounds the (in fact never
re-entered) loop so the definition stays structurally recursive. -/
def clearLoopFuel (delStatus : Nat → Nat) : Nat → List NBlock →
    Except Nat (List NBlock)
  | 0, children => .ok children
  | fuel + 1, children =>
    let page := children.take 100
    if page.isEmpty then .ok children
    else
      match deleteLoop delStatus page with
      | .error e => .error e
      | .ok _ =>
        let remaining := children.drop 100
        let has_more := decide (100 < children.length)
        let next_url : Option String := none
        if has_more && next_url.isSome then clearLoopFuel delStatus fuel remaining
        else .ok remaining

def clear_page_children (delStatus : Nat → Nat) (children : List NBlock) :
    Except Nat (List NBlock) :=
  clearLoopFuel delStatus children.length children

/-- app.py `append_blocks(page_id, blocks)`: append the blocks as new
children (`if not blocks: return`). -/
def append_blocks (page : List Block) (blocks : List Block) : List Block :=
  if blocks.isEmpty then page else page ++ blocks

/-- app.py `summarize_intros_and_syllabi(courses)`, acting on the digest
page's children: resolve the master page (modelled as the given
`children`), clear it, build the heading-plus-bullets block list over the
courses, append in one batch.  Returns the digest page's final content;
`ts` is the formatted UTC run timestamp. -/
def summarize_intros_and_syllabi (baseUrl ts : String)
    (envOf : Int → CourseEnv) (courses : List SyncCourse)
    (children : List NBlock) (delStatus : Nat → Nat) :
    Except Nat (List Block) :=
  match clear_page_children delStatus children with
  | .error e => .error e
  | .ok remaining =>
    match digestLoop baseUrl envOf courses with
    | .error e => .error e
    | .ok body =>
      let blocks := heading ("Sync run — " ++ ts) :: body
      .ok (append_blocks (remaining.map NBlock.blk) blocks)

/-! ## The HTTP trigger endpoint (web.py `sync`)

FastAPI returns a plain dict as a JSON body with HTTP status 200 (the
framework's default for a handler returning a value), which is how the
response status is modelled.  `queryKey` is `request.query_params.get("key")`
and `jsonKey` the `"key"` member of the parsed JSON body (`none` for a
missing key, an unparsable body, or a non-object body). -/

inductive SyncRespBody where
  | unauthorized
  | synced
deriving DecidableEq, Repr

structure HttpResponse where
  status : Nat
  body : SyncRespBody
deriving DecidableEq, Repr

/-- web.py lines 22–31: the query value is used unless falsy (`None` or
`""`), in which case the JSON body is consulted. -/
def effectiveKey (queryKey jsonKey : Option String) : Option String :=
  if pyTruthyOS queryKey then queryKey else jsonKey

/-- web.py `sync(request)`: reject when the configured secret is empty or
the supplied key differs from it; otherwise run `sync_once`.  The second
component records whether `sync_once` was invoked. -/
def sync_endpoint (secretKey : String) (queryKey jsonKey : Option String) :
    HttpResponse × Bool :=
  let key := effectiveKey queryKey jsonKey
  if secretKey = "" ∨ key ≠ some secretKey then
    ({ status := 200, body := .unauthorized }, false)
  else
    ({ status := 200, body := .synced }, true)

/-! ## Claim theorems -/

/-- C2, counterexample: the claim asserts
`looks_like_syllabus "syllables and sounds" = false`, but the regex
`\bsyllab\w*\b` matches the leading `"syllab"` of `"syllables"` (the
word boundary before it holds and `\w*` swallows `"les"`), so the
classifier returns `true` on this input. -/
theorem c2_counterexample :
    looks_like_syllabus "syllables and sounds" = true := by decide

/-- C2, amended: the syllabus classifier matches the word stem
`"syllab"` followed by any word characters at word boundaries:
`looks_like_syllabus` returns true for `"Syllabus"`,
`"Course SYLLABI 2024"` and `"syllabus.pdf"`, and — because the stem
over-matches words such as `"syllables"` — also returns true for
`"syllables and sounds"`; it returns false when the stem is not preceded
by a word boundary, as in `"asyllabus"`. -/
theorem c2_looks_like_syllabus_amended :
    looks_like_syllabus "Syllabus" = true ∧
    looks_like_syllabus "Course SYLLABI 2024" = true ∧
    looks_like_syllabus "syllabus.pdf" = true ∧
    looks_like_syllabus "syllables and sounds" = true ∧
    looks_like_syllabus "asyllabus" = false := by decide

/-- C7: `plain_text_preview` strips tag spans, collapses whitespace,
HTML-unescapes and trims (the `strippedTextCore` pipeline); when the
stripped text exceeds the limit the result is exactly the first `limit`
characters with the ellipsis marker appended (length `limit + 1`),
otherwise the stripped text unchanged; `None` and empty input give the
empty string. -/
theorem c7_plain_text_preview_spec :
    (∀ limit : Nat, plain_text_preview none limit = "" ∧
      plain_text_preview (some "") limit = "") ∧
    (∀ (m : String) (limit : Nat), (strippedTextCore m.data).length ≤ limit →
      plain_text_preview (some m) limit = String.mk (strippedTextCore m.data)) ∧
    (∀ (m : String) (limit : Nat), limit < (strippedTextCore m.data).length →
      (plain_text_preview (some m) limit).data
          = (strippedTextCore m.data).take limit ++ ['…'] ∧
        (plain_text_preview (some m) limit).length = limit + 1) := by
  refine ⟨fun limit => ⟨rfl, rfl⟩, fun m limit h => ?_, fun m limit h => ?_⟩
  · by_cases hm : m = ""
    · subst hm
      have he : strippedTextCore "".data = [] := by decide
      simp [plain_text_preview, he]
    · simp only [plain_text_preview, hm, if_false]
      rw [if_neg (by omega)]
  · have hm : m ≠ "" := by
      intro he
      subst he
      have : strippedTextCore "".data = [] := by decide
      rw [this] at h
      simp at h
    simp only [plain_text_preview, hm, if_false]
    rw [if_pos h]
    refine ⟨rfl, ?_⟩
    show (List.take limit (strippedTextCore m.data) ++ ['…']).length = limit + 1
    rw [List.length_append, List.length_take]
    simp [Nat.min_eq_left (Nat.le_of_lt h)]

/-- Witness for C7 at concrete inputs: no truncation at limit 20,
truncation with marker at limit 5. -/
theorem c7_witness :
    ((strippedTextCore "<p>Hello World</p>".data).length ≤ 20 ∧
      plain_text_preview (some "<p>Hello World</p>") 20 = "Hello World") ∧
    (5 < (strippedTextCore "<p>Hello World</p>".data).length ∧
      (plain_text_preview (some "<p>Hello World</p>") 5).data
          = (strippedTextCore "<p>Hello World</p>".data).take 5 ++ ['…'] ∧
        (plain_text_preview (some "<p>Hello World</p>") 5).length = 5 + 1) := by
  refine ⟨⟨by decide, ?_⟩, ⟨by decide, ?_⟩⟩
  · rw [c7_plain_text_preview_spec.2.1 "<p>Hello World</p>" 20 (by decide)]
    decide
  · exact c7_plain_text_preview_spec.2.2 "<p>Hello World</p>" 5 (by decide)

/-- C8: every request whose effective key is missing or differs from the
configured secret — and every request at all when the secret is empty —
yields the unauthorized JSON body with HTTP status 200 (FastAPI's
default for a returned dict) and does not invoke `sync_once`; with an
empty secret the endpoint rejects unconditionally, so sync can never be
triggered over HTTP. -/
theorem c8_sync_endpoint_unauthorized :
    (∀ (secret : String) (qk jk : Option String),
      secret = "" ∨ effectiveKey qk jk ≠ some secret →
        sync_endpoint secret qk jk
          = ({ status := 200, body := .unauthorized }, false)) ∧
    (∀ qk jk : Option String,
      sync_endpoint "" qk jk
        = ({ status := 200, body := .unauthorized }, false)) := by
  constructor
  · intro secret qk jk h
    unfold sync_endpoint
    rw [if_pos h]
  · intro qk jk
    unfold sync_endpoint
    rw [if_pos (Or.inl rfl)]

/-- Witness for C8: an empty configured secret rejects even a request
supplying an empty key. -/
theorem c8_witness :
    (("" : String) = "" ∨ effectiveKey (some "") (some "") ≠ some "") ∧
      sync_endpoint "" (some "") (some "")
        = ({ status := 200, body := .unauthorized }, false) :=
  ⟨Or.inl rfl, c8_sync_endpoint_unauthorized.1 "" (some "") (some "") (Or.inl rfl)⟩

/-- C3: when the primary enrolled-courses query fails with an HTTP error
or returns zero results, the result is the fallback listing filtered by
the keep condition, and that condition holds exactly when the term has
no defined start and no defined end date, or its end date is not in the
past, or its start date is not yet reached. -/
theorem c3_fallback_course_filter
    (primary : Except Nat (List FallbackCourse))
    (fallback : List FallbackCourse) (now : Int)
    (h : (∃ e, primary = .error e) ∨ primary = .ok []) :
    get_current_and_future_courses primary fallback now
        = fallback.filter (keepCourse now) ∧
      ∀ c, keepCourse now c = true ↔ specKeepsCourse now c := by
  constructor
  · rcases h with ⟨e, he⟩ | he <;> subst he <;>
      simp [get_current_and_future_courses]
  · intro c
    unfold keepCourse specKeepsCourse
    cases hs : c.term.bind TermInfo.start_at <;>
      cases hd : c.term.bind TermInfo.end_at <;>
        simp [hs, hd]

/-- Witness for C3: a failing primary query falls back and keeps the
undated course and the not-yet-ended course while dropping the
definitively ended one. -/
theorem c3_witness :
    get_current_and_future_courses (.error 403)
        [{ term := none },
         { term := some { start_at := some 0, end_at := some 50 } },
         { term := some { start_at := none, end_at := some 150 } }] 100
      = [{ term := none },
         { term := some { start_at := none, end_at := some 150 } }] ∧
    (keepCourse 100 { term := none } = true ↔
      specKeepsCourse 100 { term := none }) := by
  have h := c3_fallback_course_filter (.error 403)
    [{ term := none },
     { term := some { start_at := some 0, end_at := some 50 } },
     { term := some { start_at := none, end_at := some 150 } }] 100
    (Or.inl ⟨403, rfl⟩)
  exact ⟨by rw [h.1]; decide, h.2 { term := none }⟩

/-- Unfolding equation for one request of `paginate_canvas`. -/
theorem paginate_canvas_step {ρ : Type} (server : String → PageResp ρ)
    (fuel : Nat) (url : String) (params : List (String × String)) :
    paginate_canvas server (fuel + 1) url params =
      (let items := match (server url).data with
        | .arr l => l
        | .single x => [x]
      match parseNextUrl (server url).linkHeader with
      | none => some (items, [(url, params)])
      | some u =>
        if u = "" then some (items, [(url, params)])
        else
          match paginate_canvas server fuel u [] with
          | none => none
          | some (rest, tr) => some (items ++ rest, (url, params) :: tr)) := rfl

/-- C5: over a chain of linked pages (each naming its successor in the
`Link` header, the last yielding no next URL), `paginate_canvas` with
enough fuel returns the concatenation of all pages' records in order and
terminates; the request trace shows the initial query parameters sent
only on the first request, every later request carrying the empty
parameter set. -/
theorem c5_paginate_params_and_concat {ρ : Type} (server : String → PageResp ρ)
    (u : String) (pages : List (List ρ)) (params : List (String × String))
    (fuel : Nat) (hchain : ChainOk server u pages)
    (hfuel : pages.length ≤ fuel) :
    ∃ tr, paginate_canvas server fuel u params = some (pages.flatten, tr) ∧
      tr.length = pages.length ∧
      tr.head? = some (u, params) ∧
      ∀ e ∈ tr.tail, e.2 = ([] : List (String × String)) := by
  induction pages generalizing u params fuel with
  | nil => exact absurd hchain (by simp [ChainOk])
  | cons pg rest ih =>
    cases fuel with
    | zero => simp at hfuel
    | succ f =>
      cases rest with
      | nil =>
        obtain ⟨hdata, hnext⟩ := hchain
        refine ⟨[(u, params)], ?_, by simp, by simp, by simp⟩
        rw [paginate_canvas_step, hdata]
        rcases hnext with hn | hn <;> simp [hn]
      | cons pg2 rest2 =>
        obtain ⟨hdata, u', hnext, hne, hchain'⟩ := hchain
        have hf : (pg2 :: rest2).length ≤ f := by
          simpa using Nat.lt_succ_iff.mp (Nat.lt_of_lt_of_le (by simp) hfuel)
        obtain ⟨tr', heq, hlen, hhead, htail⟩ := ih u' [] f hchain' hf
        refine ⟨(u, params) :: tr', ?_, by simpa using hlen, by simp, ?_⟩
        · rw [paginate_canvas_step, hdata, hnext]
          simp [hne, heq]
        · intro e he
          simp only [List.tail_cons] at he
          cases tr' with
          | nil => simp at he
          | cons t0 ts =>
            rcases List.mem_cons.mp he with h0 | hts
            · have : t0 = (u', []) := by simpa using hhead
              rw [h0, this]
            · exact htail e (by simpa using hts)

/-- Witness for C5: a three-page chain; the fetch yields the five
records in order and the trace carries parameters only on the first
request. -/
theorem c5_witness :
    ∃ tr,
      paginate_canvas
        (fun v => if v = "u1" then ⟨.arr [1, 2], "<u2>; rel=\"next\""⟩
          else if v = "u2" then ⟨.arr [3], "<u3>; rel=\"next\""⟩
          else ⟨.arr ([4, 5] : List Nat), ""⟩)
        5 "u1" [("per_page", "100")]
          = some ([[1, 2], [3], [4, 5]].flatten, tr) ∧
        tr.length = [[1, 2], [3], ([4, 5] : List Nat)].length ∧
        tr.head? = some ("u1", [("per_page", "100")]) ∧
        ∀ e ∈ tr.tail, e.2 = ([] : List (String × String)) := by
  refine c5_paginate_params_and_concat
    (fun v => if v = "u1" then ⟨.arr [1, 2], "<u2>; rel=\"next\""⟩
      else if v = "u2" then ⟨.arr [3], "<u3>; rel=\"next\""⟩
      else ⟨.arr ([4, 5] : List Nat), ""⟩)
    "u1" [[1, 2], [3], [4, 5]] [("per_page", "100")] 5 ?_ (by decide)
  exact ⟨by decide, "u2", by decide, by decide,
    by decide, "u3", by decide, by decide,
    by decide, Or.inl (by decide)⟩

/-! ### Upsert helper lemmas -/

theorem filter_key_eq_nil {k : String} {st : NotionStore}
    (h0 : countKey k st = 0) :
    st.pages.filter (fun p => p.props.canvasId = k) = [] := by
  rw [List.filter_eq_nil_iff]
  intro p hp
  simpa using List.countP_eq_zero.mp h0 p hp

theorem query_eq_nil_of_count_zero {k : String} {st : NotionStore}
    (h0 : countKey k st = 0) :
    notion_query_by_canvas_id k st = [] := by
  unfold notion_query_by_canvas_id
  rw [filter_key_eq_nil h0]
  rfl

theorem pid_unique {l : List NotionPage}
    (hl : l.Pairwise (fun p q => p.pid ≠ q.pid)) :
    ∀ p ∈ l, ∀ q ∈ l, p.pid = q.pid → p = q := by
  induction l with
  | nil => simp
  | cons a t ih =>
    intro p hp q hq hpq
    rcases List.mem_cons.mp hp with rfl | hp' <;>
      rcases List.mem_cons.mp hq with rfl | hq'
    · rfl
    · exact absurd hpq ((List.pairwise_cons.mp hl).1 q hq')
    · exact absurd hpq.symm ((List.pairwise_cons.mp hl).1 p hp')
    · exact ih (List.pairwise_cons.mp hl).2 p hp' q hq' hpq

theorem countP_congr_mem {α : Type} {p q : α → Bool} {l : List α}
    (h : ∀ a ∈ l, p a = q a) : l.countP p = l.countP q := by
  refine List.countP_congr (fun a ha => ?_)
  rw [h a ha]

/-- One upsert of a record whose key already occurs at most once leaves
that key occurring at most once and preserves store well-formedness. -/
theorem upsert_preserves (x : AssignmentRecord) (st : NotionStore)
    (hwf : WfStore st) (hle : countKey x.id st ≤ 1) :
    countKey x.id (upsert_assignment x st).2 ≤ 1 ∧
      WfStore (upsert_assignment x st).2 := by
  cases hq : notion_query_by_canvas_id x.id st with
  | nil =>
    have e1 : (upsert_assignment x st).2
        = notion_create_page (build_notion_properties x) st := by
      unfold upsert_assignment
      rw [hq]
    have hfil : st.pages.filter (fun p => p.props.canvasId = x.id) = [] := by
      have := hq
      unfold notion_query_by_canvas_id at this
      rcases List.take_eq_nil_iff.mp this with h | h
      · omega
      · exact h
    have h0 : countKey x.id st = 0 := by
      unfold countKey
      rw [List.countP_eq_length_filter, hfil]
      rfl
    rw [e1]
    refine ⟨?_, ?_, ?_⟩
    · unfold countKey notion_create_page
      rw [List.countP_append, show countKey x.id st
          = st.pages.countP (fun p => p.props.canvasId = x.id) from rfl] at *
      simp [h0, build_notion_properties]
    · unfold notion_create_page
      rw [List.pairwise_append]
      refine ⟨hwf.1, by simp, ?_⟩
      intro a ha b hb
      have := hwf.2 a ha
      simp only [List.mem_singleton] at hb
      subst hb
      exact Nat.ne_of_lt this
    · unfold notion_create_page
      intro p hp
      rcases List.mem_append.mp hp with h | h
      · exact Nat.lt_trans (hwf.2 p h) (Nat.lt_succ_self st.nextId)
      · simp only [List.mem_singleton] at h
        subst h
        exact Nat.lt_succ_self st.nextId
  | cons r rs =>
    have e1 : (upsert_assignment x st).2
        = notion_update_page r.pid (build_notion_properties x) st := by
      unfold upsert_assignment
      rw [hq]
    have hrmem : r ∈ st.pages ∧ (r.props.canvasId = x.id) := by
      have hr : r ∈ notion_query_by_canvas_id x.id st := by
        rw [hq]; exact List.mem_cons_self r rs
      unfold notion_query_by_canvas_id at hr
      have := List.mem_of_mem_take hr
      have hm := List.mem_filter.mp this
      exact ⟨hm.1, by simpa using hm.2⟩
    rw [e1]
    have hsame : ∀ p ∈ st.pages,
        decide ((if p.pid = r.pid
            then { p with props := build_notion_properties x } else p).props.canvasId
          = x.id) = decide (p.props.canvasId = x.id) := by
      intro p hp
      by_cases hpid : p.pid = r.pid
      · have : p = r := pid_unique hwf.1 p hp r hrmem.1 hpid
        subst this
        simp [hpid, build_notion_properties, hrmem.2]
      · simp [hpid]
    refine ⟨?_, ?_, ?_⟩
    · unfold countKey notion_update_page
      rw [List.countP_map]
      calc st.pages.countP _ = st.pages.countP
            (fun p => decide (p.props.canvasId = x.id)) :=
          countP_congr_mem hsame
        _ ≤ 1 := hle
    · unfold notion_update_page
      exact List.Pairwise.map _ (fun a b hab => by
        by_cases ha : a.pid = r.pid <;> by_cases hb : b.pid = r.pid <;>
          simp [ha, hb] <;> omega) hwf.1
    · unfold notion_update_page
      intro p hp
      rcases List.mem_map.mp hp with ⟨q, hq', rfl⟩
      have := hwf.2 q hq'
      by_cases hqp : q.pid = r.pid <;> simp [hqp] <;> omega

/-- Folding `upsert_assignment` over any batch of records sharing one
identity key keeps at most one destination record for that key. -/
theorem upsertAll_count_le_one (k : String) (xs : List AssignmentRecord)
    (st : NotionStore) (hxs : ∀ x ∈ xs, x.id = k) (hwf : WfStore st)
    (hle : countKey k st ≤ 1) :
    countKey k (upsertAll xs st) ≤ 1 := by
  induction xs generalizing st with
  | nil => exact hle
  | cons x t ih =>
    have hxk : x.id = k := hxs x (List.mem_cons_self x t)
    have step := upsert_preserves x st hwf (by rw [hxk]; exact hle)
    have : upsertAll (x :: t) st = upsertAll t (upsert_assignment x st).2 := rfl
    rw [this]
    exact ih (upsert_assignment x st).2
      (fun y hy => hxs y (List.mem_cons_of_mem x hy))
      step.2 (by rw [← hxk]; exact step.1)

/-- C1: upsert is idempotent.  Starting from a well-formed store with no
record bearing the record's identity key, the first `upsert_assignment`
takes the create branch (the query by identity key returns no match),
the second takes the update branch on the created page, and exactly one
destination record bears that key afterwards. -/
theorem c1_upsert_idempotent (x : AssignmentRecord) (st : NotionStore)
    (hwf : WfStore st) (h0 : countKey x.id st = 0) :
    (upsert_assignment x st).1 = UpsertAction.created ∧
    (upsert_assignment x (upsert_assignment x st).2).1
        = UpsertAction.updated st.nextId ∧
    countKey x.id (upsert_assignment x (upsert_assignment x st).2).2 = 1 := by
  have hq := query_eq_nil_of_count_zero h0
  have hfil := filter_key_eq_nil h0
  have e1 : upsert_assignment x st
      = (.created, notion_create_page (build_notion_properties x) st) := by
    unfold upsert_assignment
    rw [hq]
  have hfil1 : ((notion_create_page (build_notion_properties x) st).pages).filter
      (fun p => p.props.canvasId = x.id)
        = [{ pid := st.nextId, props := build_notion_properties x }] := by
    unfold notion_create_page
    rw [List.filter_append, hfil]
    simp [build_notion_properties]
  have hq1 : notion_query_by_canvas_id x.id
      (notion_create_page (build_notion_properties x) st)
        = [{ pid := st.nextId, props := build_notion_properties x }] := by
    unfold notion_query_by_canvas_id
    rw [hfil1]
    rfl
  have e2 : upsert_assignment x (notion_create_page (build_notion_properties x) st)
      = (.updated st.nextId,
          notion_update_page st.nextId (build_notion_properties x)
            (notion_create_page (build_notion_properties x) st)) := by
    unfold upsert_assignment
    rw [hq1]
  refine ⟨by rw [e1], ?_, ?_⟩
  · rw [e1]
    exact congrArg Prod.fst e2
  · rw [e1]
    show countKey x.id
      (upsert_assignment x (notion_create_page (build_notion_properties x) st)).2 = 1
    rw [e2]
    unfold countKey notion_update_page notion_create_page
    rw [List.map_append, List.countP_append]
    have hA : (st.pages.map (fun p => if p.pid = st.nextId
        then { p with props := build_notion_properties x } else p)).countP
          (fun p => p.props.canvasId = x.id) = 0 := by
      rw [List.countP_eq_zero]
      intro q hq'
      rcases List.mem_map.mp hq' with ⟨p, hp, rfl⟩
      have hlt := hwf.2 p hp
      have hne : p.pid ≠ st.nextId := by omega
      have hnk := List.countP_eq_zero.mp h0 p hp
      simpa [hne] using hnk
    have hB : (([{ pid := st.nextId, props := build_notion_properties x }] :
        List NotionPage).map
        (fun p => if p.pid = st.nextId
          then { p with props := build_notion_properties x } else p)).countP
          (fun p => p.props.canvasId = x.id) = 1 := by
      simp [build_notion_properties]
    rw [hA, hB]

/-- Witness for C1 at a concrete record and the empty store. -/
theorem c1_witness :
    (upsert_assignment
        (normalize_assignment
          { id := some 7, name := some "HW 1", due_at := none, html_url := none,
            points_possible := none, published := none, workflow_state := none }
          "Math") { nextId := 0, pages := [] }).1 = UpsertAction.created ∧
    countKey "7"
        (upsert_assignment
          (normalize_assignment
            { id := some 7, name := some "HW 1", due_at := none, html_url := none,
              points_possible := none, published := none, workflow_state := none }
            "Math")
          (upsert_assignment
            (normalize_assignment
              { id := some 7, name := some "HW 1", due_at := none, html_url := none,
                points_possible := none, published := none, workflow_state := none }
            "Math") { nextId := 0, pages := [] }).2).2 = 1 := by
  have h := c1_upsert_idempotent
    (normalize_assignment
      { id := some 7, name := some "HW 1", due_at := none, html_url := none,
        points_possible := none, published := none, workflow_state := none }
      "Math") { nextId := 0, pages := [] }
    ⟨List.Pairwise.nil, by simp⟩ (by decide)
  exact ⟨h.1, h.2.2⟩

/-- C9: a source record with no `"id"` field normalizes to the identity
key `"None"` (and, when the name is also missing, to the name
`"Assignment None"`); upserting any batch of records all bearing the key
`"None"` into a well-formed store holding no such record leaves at most
one destination record with that key. -/
theorem c9_idless_records_share_key (a : SrcAssignment) (cname : String)
    (ha : a.id = none) (xs : List AssignmentRecord) (st : NotionStore)
    (hxs : ∀ x ∈ xs, x.id = "None") (hwf : WfStore st)
    (h0 : countKey "None" st = 0) :
    (normalize_assignment a cname).id = "None" ∧
    (a.name = none → (normalize_assignment a cname).name = "Assignment None") ∧
    countKey "None" (upsertAll xs st) ≤ 1 := by
  refine ⟨by simp [normalize_assignment, pyStrOI, ha], ?_, ?_⟩
  · intro hn
    simp [normalize_assignment, pyOrS, pyStrOI, ha, hn]
  · exact upsertAll_count_le_one "None" xs st hxs hwf (by omega)

/-- Witness for C9: two distinct id-less records, upserted into the
empty store, collapse onto at most one destination record. -/
theorem c9_witness :
    (normalize_assignment
        { id := none, name := none, due_at := none, html_url := none,
          points_possible := none, published := none, workflow_state := none }
        "Math").id = "None" ∧
    (normalize_assignment
        { id := none, name := none, due_at := none, html_url := none,
          points_possible := none, published := none, workflow_state := none }
        "Math").name = "Assignment None" ∧
    countKey "None"
        (upsertAll
          [normalize_assignment
            { id := none, name := none, due_at := none, html_url := none,
              points_possible := none, published := none, workflow_state := none }
            "Math",
           normalize_assignment
            { id := none, name := none, due_at := some "2024-01-01", html_url := none,
              points_possible := none, published := none, workflow_state := none }
            "Art"] { nextId := 0, pages := [] }) ≤ 1 := by
  have h := c9_idless_records_share_key
    { id := none, name := none, due_at := none, html_url := none,
      points_possible := none, published := none, workflow_state := none }
    "Math" rfl
    [normalize_assignment
      { id := none, name := none, due_at := none, html_url := none,
        points_possible := none, published := none, workflow_state := none }
      "Math",
     normalize_assignment
      { id := none, name := none, due_at := some "2024-01-01", html_url := none,
        points_possible := none, published := none, workflow_state := none }
      "Art"] { nextId := 0, pages := [] }
    (by intro x hx; fin_cases hx <;> rfl)
    ⟨List.Pairwise.nil, by simp⟩ (by decide)
  exact ⟨h.1, h.2.1 rfl, h.2.2⟩

/-! ### Assignment-pass error isolation -/

theorem syncAssignmentsLoop_ok (upsertO : AssignmentRecord → Except PyErr Unit)
    (onlyDated : Bool) (cname : String) (asgs : List SrcAssignment)
    (hu : ∀ x e, upsertO x = .error e → ∃ code, e = .httpError code) :
    syncAssignmentsLoop upsertO onlyDated cname asgs
      = .ok (asgs.flatMap (assignmentEvents upsertO onlyDated cname)) := by
  induction asgs with
  | nil => rfl
  | cons a more ih =>
    rw [List.flatMap_cons]
    unfold syncAssignmentsLoop
    by_cases hd : (onlyDated && !pyTruthyOS (normalize_assignment a cname).due_at) = true
    · rw [if_pos hd, ih]
      have : assignmentEvents upsertO onlyDated cname a = [] := by
        unfold assignmentEvents
        rw [if_pos hd]
      rw [this]
      rfl
    · rw [if_neg hd]
      have he : assignmentEvents upsertO onlyDated cname a
          = match upsertO (normalize_assignment a cname) with
            | .ok _ => [.upserted cname (normalize_assignment a cname).name]
            | .error (.httpError code) =>
              [.upsertFailed cname (normalize_assignment a cname).name code,
                .cooldown]
            | .error .otherError => [] := by
        unfold assignmentEvents
        rw [if_neg hd]
      cases hup : upsertO (normalize_assignment a cname) with
      | ok u =>
        rw [ih, he, hup]
        rfl
      | error e =>
        rcases hu _ _ hup with ⟨code, rfl⟩
        rw [ih, he, hup]
        rfl

/-- C6: in the assignment pass, with every remote failure an HTTP error,
the whole batch completes (no per-item error escapes the loop) and the
produced events are exactly the per-course contributions in order — an
HTTP error fetching one course's assignments contributes only that
course's failure event, and an HTTP error upserting one assignment only
that assignment's failure-plus-cooldown events, the loop continuing
either way. -/
theorem c6_assignment_pass_isolation
    (fetchO : Int → Except PyErr (List SrcAssignment))
    (upsertO : AssignmentRecord → Except PyErr Unit)
    (onlyDated : Bool) (courses : List SyncCourse)
    (hf : ∀ n e, fetchO n = .error e → ∃ code, e = .httpError code)
    (hu : ∀ x e, upsertO x = .error e → ∃ code, e = .httpError code) :
    sync_once_assignment_pass fetchO upsertO onlyDated courses
      = .ok (courses.flatMap (courseEvents fetchO upsertO onlyDated)) := by
  induction courses with
  | nil => rfl
  | cons c rest ih =>
    rw [List.flatMap_cons]
    unfold sync_once_assignment_pass
    cases hc : c.id with
    | none =>
      have hnil : courseEvents fetchO upsertO onlyDated c = [] := by
        unfold courseEvents
        rw [hc]
      simp only [hnil, ih]
      rfl
    | some n =>
      have hce : courseEvents fetchO upsertO onlyDated c
          = if n = 0 then []
            else match fetchO n with
              | .error (.httpError code) =>
                [.fetchFailed (pyOrS c.name ("Course " ++ pyStrOI c.id)) code]
              | .error .otherError => []
              | .ok asgs => asgs.flatMap (assignmentEvents upsertO onlyDated
                  (pyOrS c.name ("Course " ++ pyStrOI c.id))) := by
        unfold courseEvents
        rw [hc]
      by_cases hn : n = 0
      · simp only [hce, if_pos hn, ih]
        rfl
      · simp only [hce, if_neg hn]
        cases hfc : fetchO n with
        | error e =>
          rcases hf _ _ hfc with ⟨code, rfl⟩
          simp only [hfc, ih]
          rw [hc]
          rfl
        | ok asgs =>
          simp only [hfc, syncAssignmentsLoop_ok upsertO onlyDated _ asgs hu, ih]
          rw [hc]

/-- Witness for C6: the first course's fetch fails with an HTTP error and
an upsert in the second course fails with an HTTP error; the pass still
completes, reporting both failures and the successful upsert that
follows them. -/
theorem c6_witness :
    sync_once_assignment_pass
      (fun n => if n = 1 then .error (.httpError 500)
        else .ok [{ id := some 10, name := some "A", due_at := some "2024-01-01",
                    html_url := none, points_possible := none, published := none,
                    workflow_state := none },
                  { id := some 11, name := some "B", due_at := some "2024-01-02",
                    html_url := none, points_possible := none, published := none,
                    workflow_state := none }])
      (fun x => if x.id = "10" then .error (.httpError 409) else .ok ())
      false
      [{ id := some 1, name := some "C1" }, { id := some 2, name := some "C2" }]
      = .ok [.fetchFailed "C1" 500,
             .upsertFailed "C2" "A" 409, .cooldown,
             .upserted "C2" "B"] := by
  rw [c6_assignment_pass_isolation _ _ false _
    (by
      intro n e h
      by_cases hn : n = 1
      · subst hn
        simp only [if_pos rfl] at h
        exact ⟨500, by injection h.symm⟩
      · simp only [if_neg hn] at h
        cases h)
    (by
      intro x e h
      by_cases hx : x.id = "10"
      · simp only [if_pos hx] at h
        exact ⟨409, by injection h.symm⟩
      · simp only [if_neg hx] at h
        cases h)]
  decide

/-! ### Digest-builder lemmas -/

theorem deleteLoop_ok (delStatus : Nat → Nat) (l : List NBlock)
    (h : ∀ b ∈ l, delStatus b.bid = 200 ∨ delStatus b.bid = 202 ∨
      delStatus b.bid = 204 ∨ delStatus b.bid = 404) :
    deleteLoop delStatus l = .ok () := by
  induction l with
  | nil => rfl
  | cons b rest ih =>
    unfold deleteLoop
    have hb := h b (List.mem_cons_self b rest)
    have hcond : (delStatus b.bid = 200 || delStatus b.bid = 202 ||
        delStatus b.bid = 204 || delStatus b.bid = 404) = true := by
      rcases hb with h' | h' | h' | h' <;> simp [h']
    rw [if_pos hcond]
    exact ih (fun x hx => h x (List.mem_cons_of_mem b hx))

/-- The clearing loop is a single round: when every delete on the first
listing page is tolerated, it returns successfully — the response's
absent next-URL makes the loop break — with exactly the children beyond
the first hundred left on the page. -/
theorem clear_page_children_first_page (delStatus : Nat → Nat)
    (children : List NBlock)
    (h : ∀ b ∈ children.take 100, delStatus b.bid = 200 ∨
      delStatus b.bid = 202 ∨ delStatus b.bid = 204 ∨ delStatus b.bid = 404) :
    clear_page_children delStatus children = .ok (children.drop 100) := by
  cases children with
  | nil => rfl
  | cons c cs =>
    show clearLoopFuel delStatus (cs.length + 1) (c :: cs) = _
    unfold clearLoopFuel
    have hemp : ((c :: cs).take 100).isEmpty = false := by
      simp [List.take_cons, List.isEmpty_cons]
    simp [hemp]
    rw [deleteLoop_ok delStatus (c :: List.take 99 cs) h]

theorem pagesLoop_ok (ps : List RawPage)
    (h : ∀ p ∈ ps, ∃ b, p.body = .ok b) :
    ∃ out, pagesLoop ps = .ok out := by
  induction ps with
  | nil => exact ⟨[], rfl⟩
  | cons p rest ih =>
    obtain ⟨b, hb⟩ := h p (List.mem_cons_self p rest)
    obtain ⟨out, hout⟩ := ih (fun q hq => h q (List.mem_cons_of_mem p hq))
    refine ⟨{ title := pyOrS p.title "", html := b, web_url := p.html_url } :: out, ?_⟩
    unfold pagesLoop
    rw [hb, hout]

theorem modulesLoop_ok (ms : List RawModule)
    (h : ∀ m ∈ ms, ∃ i, m.items = .ok i) :
    ∃ out, modulesLoop ms = .ok out := by
  induction ms with
  | nil => exact ⟨[], rfl⟩
  | cons m rest ih =>
    obtain ⟨its, hits⟩ := h m (List.mem_cons_self m rest)
    obtain ⟨out, hout⟩ := ih (fun q hq => h q (List.mem_cons_of_mem m hq))
    refine ⟨(its.map (fun it =>
      { module := m.name
        title := pyOrS it.title ""
        web_url := pyOrOS it.html_url it.external_url
        itemType := it.itemType })) ++ out, ?_⟩
    unfold modulesLoop
    rw [hits, hout]

theorem digestCourseBlocks_ok (baseUrl : String) (env : CourseEnv)
    (cid : Int) (cname : String) (henv : EnvFetchesOk env) :
    ∃ bs, digestCourseBlocks baseUrl env cid cname = .ok bs := by
  obtain ⟨⟨body, hbody⟩, ⟨ps, hps, hpb⟩, ⟨ms, hms, hmi⟩, ⟨fs, hfs⟩⟩ := henv
  obtain ⟨pout, hpout⟩ := pagesLoop_ok ps hpb
  obtain ⟨mout, hmout⟩ := modulesLoop_ok ms hmi
  have hget : get_pages_with_bodies env.pages = .ok pout := by
    unfold get_pages_with_bodies
    rw [hps]
    exact hpout
  have hmod : get_modules_and_items env.modules = .ok mout := by
    unfold get_modules_and_items
    rw [hms]
    exact hmout
  have hfil : find_syllabus_files env.files
      = .ok ((fs.filter (fun f =>
          let name := pyOrS f.display_name (pyOrS f.filename "")
          looks_like_syllabus name || hasKeptExt name)).map
        (fun f => { title := pyOrS f.display_name (pyOrS f.filename "")
                    web_url := f.url })) := by
    unfold find_syllabus_files
    rw [hfs]
  cases hres : digestCourseBlocks baseUrl env cid cname with
  | ok bs => exact ⟨bs, rfl⟩
  | error e =>
    exfalso
    unfold digestCourseBlocks at hres
    rw [hbody, hget, hmod, hfil] at hres
    simp at hres

theorem digestLoop_ok (baseUrl : String) (envOf : Int → CourseEnv)
    (courses : List SyncCourse) (henv : ∀ n, EnvFetchesOk (envOf n)) :
    ∃ bs, digestLoop baseUrl envOf courses = .ok bs := by
  induction courses with
  | nil => exact ⟨[], rfl⟩
  | cons c rest ih =>
    obtain ⟨out, hout⟩ := ih
    cases hc : c.id with
    | none =>
      refine ⟨out, ?_⟩
      unfold digestLoop
      rw [hc]
      exact hout
    | some n =>
      by_cases hn : n = 0
      · refine ⟨out, ?_⟩
        unfold digestLoop
        rw [hc]
        simp only [if_pos hn]
        exact hout
      · obtain ⟨bs, hbs⟩ := digestCourseBlocks_ok baseUrl (envOf n) n
          (pyOrS c.name ("Course " ++ pyStrOI (some n))) (henv n)
        refine ⟨bs ++ out, ?_⟩
        unfold digestLoop
        rw [hc]
        simp only [if_neg hn]
        rw [hbs, hout]

/-- C4, failing input: a digest page with 101 stale child blocks, every
delete answered 200.  The claim — and the function's own docstring
("Deletes all child blocks from a Notion page so we can rewrite it
fresh") with its "paginate through children" comment — requires every
page of the paginated child listing to be iterated so that only the
newly appended blocks remain.  The code instead reads
`data.get("next_url")`, a member the cursor-paginated Notion
list-children response never carries, so after the first hundred
deletions the loop breaks: one stale block survives the clear, and the
digest page after the run still shows it ahead of the fresh heading. -/
theorem c4_clear_breaks_after_first_page :
    clear_page_children (fun _ => 200)
        ((List.range 101).map (fun i => { bid := i, blk := Block.heading_2 "old" }))
      = .ok [{ bid := 100, blk := Block.heading_2 "old" }] ∧
    summarize_intros_and_syllabi "" "t"
        (fun _ => { syllabus_body := .ok none, front_page := .error 404,
                    pages := .ok [], modules := .ok [], files := .ok [] })
        [{ id := some 1, name := some "C" }]
        ((List.range 101).map (fun i => { bid := i, blk := Block.heading_2 "old" }))
        (fun _ => 200)
      = .ok [Block.heading_2 "old", heading ("Sync run — " ++ "t")] := by
  constructor <;> decide

/-- C10: an HTTP error fetching a course's front page is absorbed inside
`get_front_page` (which returns `None`), so the digest pass still
succeeds for every course list whenever the other fetches succeed — the
front-page outcome is unconstrained there — whereas an HTTP error in the
syllabus-body, pages, modules or files fetch of the same per-course loop
propagates out of the digest builder. -/
theorem c10_front_page_error_isolated :
    (∀ (fetched : Except Nat RawFrontPage) (e : Nat),
      fetched = .error e → get_front_page fetched = none) ∧
    (∀ (baseUrl ts : String) (envOf : Int → CourseEnv)
        (courses : List SyncCourse) (children : List NBlock)
        (delStatus : Nat → Nat),
      (∀ b ∈ children, delStatus b.bid = 200 ∨ delStatus b.bid = 202 ∨
        delStatus b.bid = 204 ∨ delStatus b.bid = 404) →
      (∀ n, EnvFetchesOk (envOf n)) →
      ∃ bs, summarize_intros_and_syllabi baseUrl ts envOf courses children
        delStatus = .ok bs) ∧
    digestCourseBlocks ""
      { syllabus_body := .error 500,
        front_page := .ok { title := none, body := none, html_url := none },
        pages := .ok [], modules := .ok [], files := .ok [] } 1 "C"
      = .error 500 ∧
    digestCourseBlocks ""
      { syllabus_body := .ok none,
        front_page := .ok { title := none, body := none, html_url := none },
        pages := .error 500, modules := .ok [], files := .ok [] } 1 "C"
      = .error 500 ∧
    digestCourseBlocks ""
      { syllabus_body := .ok none,
        front_page := .ok { title := none, body := none, html_url := none },
        pages := .ok [], modules := .error 500, files := .ok [] } 1 "C"
      = .error 500 ∧
    digestCourseBlocks ""
      { syllabus_body := .ok none,
        front_page := .ok { title := none, body := none, html_url := none },
        pages := .ok [], modules := .ok [], files := .error 500 } 1 "C"
      = .error 500 := by
  refine ⟨?_, ?_, by decide, by decide, by decide, by decide⟩
  · intro fetched e he
    rw [he]
    rfl
  · intro baseUrl ts envOf courses children delStatus hst henv
    have hclear := clear_page_children_first_page delStatus children
      (fun b hb => hst b (List.mem_of_mem_take hb))
    obtain ⟨body, hbody⟩ := digestLoop_ok baseUrl envOf courses henv
    refine ⟨(children.drop 100).map NBlock.blk ++
      (heading ("Sync run — " ++ ts) :: body), ?_⟩
    unfold summarize_intros_and_syllabi
    rw [hclear, hbody]
    simp [append_blocks]

/-- Witness for C10: a front-page fetch failing with 500 does not abort
the digest pass, which still returns a block list. -/
theorem c10_witness :
    get_front_page (.error 418 : Except Nat RawFrontPage) = none ∧
    ∃ bs, summarize_intros_and_syllabi "" "t"
        (fun _ => { syllabus_body := .ok (some "<p>Syllabus</p>"),
                    front_page := .error 500, pages := .ok [],
                    modules := .ok [], files := .ok [] })
        [{ id := some 1, name := some "C" }] [] (fun _ => 200) = .ok bs := by
  refine ⟨c10_front_page_error_isolated.1 (.error 418) 418 rfl,
    c10_front_page_error_isolated.2.1 "" "t" _ _ [] _ (by simp) ?_⟩
  intro n
  exact ⟨⟨some "<p>Syllabus</p>", rfl⟩, ⟨[], rfl, by simp⟩, ⟨[], rfl, by simp⟩,
    ⟨[], rfl⟩⟩

end CanvasNotion
